import Mathlib

/-!
# Walker web crawler: shallow embedding and verification

This file embeds the core of the `walker` crawler (package `walker`:
`fetcher.go`, `config.go`, and the dispatcher described by its test suite)
into Lean 4 and proves or refutes the frozen specification claims about it.

Modelling conventions:
* `time.Time` and `time.Duration` values are integers (nanoseconds); the Go
  zero time and `time.Unix(0, 0)` are both rendered as `0` (no claim
  distinguishes them).
* External collaborators (the network, the HTML charset reader + tokenizer,
  `net/url.Parse`, `time.ParseDuration`, the regex aggregator, the YAML
  unmarshaller, the robots.txt parser) are abstract function parameters: the
  claims hold for every instantiation of those parameters.
* Go pointers that may be nil are rendered as `Option`; side effects of the
  fetcher loop are rendered as an explicit event trace.
-/

namespace Walker

/-- Decidable equality for `Except`, needed to `decide` facts about traces. -/
instance {ε α : Type} [DecidableEq ε] [DecidableEq α] : DecidableEq (Except ε α) := by
  intro a b
  cases a <;> cases b
  case error.error x y =>
    exact if h : x = y then .isTrue (by rw [h]) else .isFalse (by simp [h])
  case ok.ok x y =>
    exact if h : x = y then .isTrue (by rw [h]) else .isFalse (by simp [h])
  case error.ok x y => exact .isFalse (by simp)
  case ok.error x y => exact .isFalse (by simp)

/-- Model of Go's `url.URL` restricted to the fields the crawler reads and
writes (`Scheme`, `Host`, `Path`). -/
structure RawURL where
  scheme : String
  host : String
  path : String
deriving DecidableEq, Repr

/-- `NotYetCrawled = time.Unix(0, 0)` (fetcher.go:21-27), rendered as
nanosecond count `0`. -/
def notYetCrawled : Int := 0

/-- Model of `walker.URL` (fetcher.go:56-62): an embedded `*url.URL`
(nilable, hence `Option`) plus the `LastCrawled` time. -/
structure WURL where
  url : Option RawURL
  lastCrawled : Int
deriving DecidableEq, Repr

/-- Scheme of the embedded URL (`u.Scheme` in Go; the Go code would panic on
a nil embedded URL, which does not occur on the paths the claims concern). -/
def WURL.scheme (u : WURL) : String :=
  match u.url with
  | some r => r.scheme
  | none => ""

/-- Host of the embedded URL (`u.Host` in Go). -/
def WURL.host (u : WURL) : String :=
  match u.url with
  | some r => r.host
  | none => ""

/-- Rendering of a URL as a string, standing in for Go's `url.URL.String()`
on the simple URLs the fetcher handles.  It is only ever consumed by the
abstract robots `test` function, so its exact shape is immaterial to the
theorems. -/
def WURL.render (u : WURL) : String :=
  match u.url with
  | some r => r.scheme ++ "://" ++ r.host ++ r.path
  | none => ""

/-- `ParseURL` (fetcher.go:84-88): wraps the underlying `url.Parse`
(abstracted as `rawParse`).  The Go function returns the address of a fresh
`URL` struct -- never nil -- so the model returns a `WURL` value totally; on a
parse error the embedded URL is `none` (Go: nil) and the error is passed
through. -/
def ParseURL (rawParse : String → Except String RawURL) (ref : String) :
    WURL × Option String :=
  match rawParse ref with
  | .ok r => ({ url := some r, lastCrawled := notYetCrawled }, none)
  | .error e => ({ url := none, lastCrawled := notYetCrawled }, some e)

/-! ## HTML link extraction (fetcher.go:287-355) -/

/-- One token produced by the HTML tokenizer (`html.Tokenizer`).  Only the
three cases the `getLinks` loop distinguishes are modelled: a start tag with
its attribute list, the error token (EOF or parse error), and every other
token kind. -/
inductive Token where
  | startTag (name : String) (attrs : List (String × String))
  | errorTok
  | other
deriving DecidableEq, Repr

/-- Whether a token is the tokenizer's error token. -/
def Token.isErrorTok : Token → Bool
  | .errorTok => true
  | _ => false

/-- `getIncludedTags` (fetcher.go:320-335): the default tag map minus the
configured `IgnoreTags`. -/
def defaultLinkTags : List String :=
  ["a", "area", "form", "frame", "iframe", "script", "link", "img"]

/-- Membership in the map built by `getIncludedTags`. -/
def includedTags (ignoreTags : List String) (tag : String) : Bool :=
  defaultLinkTags.contains tag && !ignoreTags.contains tag

/-- `parseAnchorAttrs` (fetcher.go:340-355): scan the attributes of the
current tag; every `href` value that `ParseURL` accepts is appended to the
accumulated link list. -/
def parseAnchorAttrs (rawParse : String → Except String RawURL) :
    List (String × String) → List WURL → List WURL
  | [], links => links
  | (key, val) :: rest, links =>
    parseAnchorAttrs rawParse rest
      (if key == "href" then
        match ParseURL rawParse val with
        | (u, none) => links ++ [u]
        | (_, some _) => links
      else links)

/-- The token loop of `getLinks` (fetcher.go:298-312): stop at the error
token; on a start tag that has attributes and is in the included-tag map,
collect its `href` attributes; skip everything else.  The end of the token
list models the tokenizer running out (which in Go always surfaces as an
error token). -/
def getLinksLoop (rawParse : String → Except String RawURL)
    (tags : String → Bool) : List Token → List WURL → List WURL
  | [], links => links
  | .errorTok :: _, links => links
  | .startTag name attrs :: rest, links =>
    getLinksLoop rawParse tags rest
      (if !attrs.isEmpty && tags name then parseAnchorAttrs rawParse attrs links
       else links)
  | .other :: rest, links => getLinksLoop rawParse tags rest links

/-- `getLinks` (fetcher.go:288-315).  `tokenize` models the composition of
`charset.NewReader` (which can fail, giving the error return of `getLinks`)
and the HTML tokenizer applied to the body bytes. -/
def getLinks (tokenize : List Nat → Except String (List Token))
    (rawParse : String → Except String RawURL) (ignoreTags : List String)
    (contents : List Nat) : Except String (List WURL) :=
  match tokenize contents with
  | .error e => .error e
  | .ok toks => .ok (getLinksLoop rawParse (includedTags ignoreTags) toks [])

/-- Specification-side restatement of link extraction, following the spec's
words: consider the start tags in the default set minus `IgnoreTags` up to
the first tokenizer error, take the `href` attribute values of those tags,
parse each with `ParseURL`, and keep exactly the successfully parsed ones in
document order. -/
def specLinkExtraction (rawParse : String → Except String RawURL)
    (ignoreTags : List String) (toks : List Token) : List WURL :=
  (toks.takeWhile (fun t => !t.isErrorTok)).flatMap (fun t =>
    match t with
    | .startTag name attrs =>
      if includedTags ignoreTags name then
        attrs.filterMap (fun kv =>
          if kv.1 == "href" then
            match ParseURL rawParse kv.2 with
            | (u, none) => some u
            | (_, some _) => none
          else none)
      else []
    | _ => [])

/-! ## Robots, responses, and the fetcher loop (fetcher.go:117-285) -/

/-- Model of `robotstxt.Group`: the membership test (Go:
`g.Test(link.String())`) and the advertised `CrawlDelay`, a `time.Duration`
nanosecond count. -/
structure RobotsGroup where
  test : String → Bool
  crawlDelay : Int

/-- Model of parsed robots data (`robotstxt.RobotsData`): all the fetcher
does with it is `FindGroup(Config.UserAgent)`. -/
structure RobotsData where
  findGroup : String → Option RobotsGroup

/-- Model of `*http.Response` restricted to what the fetcher reads: the
`Content-Type` header values and the outcome of `ioutil.ReadAll` on the
body. -/
structure Response where
  contentType : List String
  bodyRead : Except String (List Nat)
deriving DecidableEq

/-- Outcome of `fetcher.fetch` (fetcher.go:270-285): a transport error or a
response. -/
inductive FetchOutcome where
  | err (e : String)
  | ok (r : Response)
deriving DecidableEq

/-- Go's `strings.HasPrefix`, written over the character lists so that it
evaluates by kernel reduction. -/
def strStartsWith (s pre : String) : Bool :=
  s.data.take pre.data.length = pre.data

/-- `isHTML` (fetcher.go:357-367): some `Content-Type` header value starts
with `text/html`. -/
def isHTML (r : Option Response) : Bool :=
  match r with
  | none => false
  | some resp => resp.contentType.any (fun ct => strStartsWith ct "text/html")

/-- `FetchResults` (fetcher.go:31-51). -/
structure FetchResults where
  url : WURL
  response : Option Response
  fetchError : Option String
  fetchTime : Int
  excludedByRobots : Bool
deriving DecidableEq

/-- One observable side effect of the fetcher loop, in program order. -/
inductive Event where
  | sleep (ns : Int)
  | httpGet (u : WURL)
  | storeURLFetchResults (fr : FetchResults)
  | storeParsedURL (u : WURL) (fr : FetchResults)
  | handleResponse (fr : FetchResults)
deriving DecidableEq

/-- The robots guard of the link loop (fetcher.go:181):
`f.robots != nil && !f.robots.Test(link.String())`. -/
def robotsDisallow (robots : Option RobotsGroup) (link : WURL) : Bool :=
  match robots with
  | some g => !g.test link.render
  | none => false

/-- Outlink normalisation (fetcher.go:219-225): an outlink with an empty
scheme or host inherits it from the referring URL, field by field, before
`StoreParsedURL` is called.  The update maps over the embedded URL (non-nil
for every link `getLinks` returns). -/
def normalizeOutlink (link outlink : WURL) : WURL :=
  { outlink with
    url := outlink.url.map (fun r =>
      let r1 := if r.scheme == "" then { r with scheme := link.scheme } else r
      if r1.host == "" then { r1 with host := link.host } else r1) }

/-- The HTML branch and the tail of the link-loop body (fetcher.go:199-235),
entered after a successful fetch: read the body (`ioutil.ReadAll`, no size
bound -- the cap is only a TODO at fetcher.go:202-205); on a read error store
the result and move on; otherwise extract outlinks from the full body, store
each normalised outlink, hand the results (with the re-readable full body)
to the handler, and store them. -/
def afterFetch (now : Int) (tokenize : List Nat → Except String (List Token))
    (rawParse : String → Except String RawURL) (ignoreTags : List String)
    (link : WURL) (fr : FetchResults) (resp : Response) : List Event :=
  let fr1 : FetchResults := { fr with fetchTime := now, response := some resp }
  if isHTML (some resp) then
    match resp.bodyRead with
    | .error e => [.storeURLFetchResults { fr1 with fetchError := some e }]
    | .ok body =>
      (match getLinks tokenize rawParse ignoreTags body with
        | .error _ => []
        | .ok outlinks =>
          outlinks.map (fun o => Event.storeParsedURL (normalizeOutlink link o) fr1))
      ++ [.handleResponse fr1, .storeURLFetchResults fr1]
  else
    [.handleResponse fr1, .storeURLFetchResults fr1]

/-- The body of the per-link loop (fetcher.go:175-236) for one link: build
the `FetchResults`; if robots disallow, store the excluded row and continue;
otherwise sleep the crawl delay, perform the HTTP GET, and process the
outcome. -/
def processLink (robots : Option RobotsGroup) (crawldelay now : Int)
    (net : WURL → FetchOutcome) (tokenize : List Nat → Except String (List Token))
    (rawParse : String → Except String RawURL) (ignoreTags : List String)
    (link : WURL) : List Event :=
  let fr : FetchResults :=
    { url := link, response := none, fetchError := none, fetchTime := 0,
      excludedByRobots := false }
  if robotsDisallow robots link then
    [.storeURLFetchResults { fr with excludedByRobots := true }]
  else
    .sleep crawldelay :: .httpGet link ::
      match net link with
      | .err e => [.storeURLFetchResults { fr with fetchTime := now, fetchError := some e }]
      | .ok resp => afterFetch now tokenize rawParse ignoreTags link fr resp

/-- The whole per-segment loop (fetcher.go:175-236): process the links
yielded by `LinksForHost` in order.  `quitAt i` says whether the quit signal
has been raised before link `i` is taken; the loop body never reads `f.quit`
(only a TODO at fetcher.go:177 mentions it), so the parameter is unused, and
the trace is the concatenation of the per-link traces. -/
def processSegment (quitAt : Nat → Bool) (robots : Option RobotsGroup)
    (crawldelay now : Int) (net : WURL → FetchOutcome)
    (tokenize : List Nat → Except String (List Token))
    (rawParse : String → Except String RawURL) (ignoreTags : List String) :
    List WURL → List Event
  | [] => []
  | link :: rest =>
    processLink robots crawldelay now net tokenize rawParse ignoreTags link ++
      processSegment quitAt robots crawldelay now net tokenize rawParse ignoreTags rest

/-- The URLs passed to `StoreParsedURL` in a trace, in order. -/
def storeParsedURLs (es : List Event) : List WURL :=
  es.filterMap (fun e =>
    match e with
    | .storeParsedURL u _ => some u
    | _ => none)

/-- One second as a `time.Duration` nanosecond count. -/
def second : Int := 1000000000

/-- The crawl-delay computation at the top of a claimed host
(fetcher.go:169-172): start from `DefaultCrawlDelay` seconds; if a robots
group is present and `int(robots.CrawlDelay) > Config.DefaultCrawlDelay`
(a raw comparison of the nanosecond count against the plain integer), use
the robots delay unmodified.  `MaxCrawlDelay` is nowhere consulted. -/
def effectiveCrawlDelay (robots : Option RobotsGroup) (defaultCrawlDelay : Int) : Int :=
  let base := defaultCrawlDelay * second
  match robots with
  | some g => if g.crawlDelay > defaultCrawlDelay then g.crawlDelay else base
  | none => base

/-- Restatement of the amended claim for the crawl delay, in the amended
spec's words: the delay is `DefaultCrawlDelay` seconds, except that a
present robots group whose nanosecond delay exceeds the plain integer
`DefaultCrawlDelay` replaces it, with no clamping. -/
def amendedCrawlDelay (robots : Option RobotsGroup) (defaultCrawlDelay : Int) : Int :=
  match robots with
  | none => defaultCrawlDelay * second
  | some g =>
    if defaultCrawlDelay < g.crawlDelay then g.crawlDelay
    else defaultCrawlDelay * second

/-- The URL the fetcher builds for robots.txt (fetcher.go:247-253); note the
path carries no leading slash, exactly as in the source. -/
def robotsURL (host : String) : WURL :=
  { url := some { scheme := "http", host := host, path := "robots.txt" },
    lastCrawled := 0 }

/-- `fetcher.fetchRobots` (fetcher.go:246-268): on a fetch error or a parse
error the group is nil (permissive); otherwise it is the group
`robotstxt.FromResponse(...).FindGroup(Config.UserAgent)` returns. -/
def fetchRobots (net : WURL → FetchOutcome)
    (parseRobots : Response → Except String RobotsData)
    (userAgent host : String) : Option RobotsGroup :=
  match net (robotsURL host) with
  | .err _ => none
  | .ok res =>
    match parseRobots res with
    | .error _ => none
    | .ok rd => rd.findGroup userAgent

/-- Result of one decision point at the top of the fetcher's outer loop
(fetcher.go:155-166). -/
inductive OuterStep where
  | stopped
  | idleRetry
  | claimed (host : String)
deriving DecidableEq, Repr

/-- The top of the outer loop (fetcher.go:155-166): first the `select` on
`f.quit` (exit if signalled), then `ClaimNewHost` -- an empty host means
sleep a second and retry, otherwise the host is adopted. -/
def outerIteration (quitSignaled : Bool) (claimResult : String) : OuterStep :=
  if quitSignaled then .stopped
  else if claimResult = "" then .idleRetry
  else .claimed claimResult

/-! ## Configuration (config.go) -/

/-- The `Dispatcher` block of `WalkerConfig` (config.go:58-63).
`RefreshPercentage` is a Go `float64`; it is modelled as a rational, which
captures the ordering of every non-NaN value. -/
structure DispatcherSettings where
  maxLinksPerSegment : Int
  refreshPercentage : Rat
  numConcurrentDomains : Int
  minLinkRefreshTime : String
deriving DecidableEq

/-- The `Cassandra` block of `WalkerConfig`, restricted to the fields the
embedded functions touch (config.go:77-98). -/
structure CassandraSettings where
  hosts : List String
  timeout : String
deriving DecidableEq

/-- `WalkerConfig` (config.go:36-105), restricted to the fields read by the
functions embedded here; the remaining fields play no part in any claim. -/
structure WalkerConfig where
  userAgent : String
  acceptFormats : List String
  acceptProtocols : List String
  maxHTTPContentSizeBytes : Int
  ignoreTags : List String
  httpTimeout : String
  excludeLinkPatterns : List String
  includeLinkPatterns : List String
  defaultCrawlDelay : String
  maxCrawlDelay : String
  purgeSidList : List String
  dispatcher : DispatcherSettings
  cassandra : CassandraSettings
deriving DecidableEq

/-- `SetDefaultConfig` (config.go:109-157), restricted to the modelled
fields. -/
def defaultConfig : WalkerConfig :=
  { userAgent := "Walker (http://github.com/iParadigms/walker)"
    acceptFormats := ["text/html", "text/*;"]
    acceptProtocols := ["http", "https"]
    maxHTTPContentSizeBytes := 20 * 1024 * 1024
    ignoreTags := ["script", "img", "link"]
    httpTimeout := "30s"
    excludeLinkPatterns := []
    includeLinkPatterns := []
    defaultCrawlDelay := "1s"
    maxCrawlDelay := "5m"
    purgeSidList := []
    dispatcher :=
      { maxLinksPerSegment := 500
        refreshPercentage := 25
        numConcurrentDomains := 1
        minLinkRefreshTime := "0s" }
    cassandra :=
      { hosts := ["localhost"]
        timeout := "2s" } }

/-- One `_, err := ...; if err != nil { errs = append(errs, msg+err) }` block of
`assertConfigInvariants`: the error message produced by a fallible step. -/
def stepErr {α : Type} (r : Except String α) (msg : String → String) : List String :=
  match r with
  | .error e => [msg e]
  | .ok _ => []

/-- `assertConfigInvariants` (config.go:174-238) as the list of error
messages it accumulates, in source order.  `pd` models `time.ParseDuration`
(a nanosecond count on success; the Go zero value `0` stands in for a failed
parse in the final comparison, exactly as in the source); `agg` models
`aggregateRegex`, the walker helper that compiles each pattern list into one
alternation.  The function returns an error exactly when the list is
non-empty. -/
def assertConfigInvariants (pd : String → Except String Int)
    (agg : List String → String → Except String String)
    (cfg : WalkerConfig) : List String :=
  (if cfg.dispatcher.refreshPercentage < 0 ∨ 100 < cfg.dispatcher.refreshPercentage then
    ["Dispatcher.RefreshPercentage must be a floating point number b/w 0 and 100"]
   else []) ++
  (if cfg.dispatcher.maxLinksPerSegment < 1 then
    ["Dispatcher.MaxLinksPerSegment must be greater than 0"]
   else []) ++
  (if cfg.dispatcher.numConcurrentDomains < 1 then
    ["Dispatcher.NumConcurrentDomains must be greater than 0"]
   else []) ++
  stepErr (pd cfg.httpTimeout) (fun e => "HttpTimeout failed to parse: " ++ e) ++
  stepErr (pd cfg.cassandra.timeout) (fun e => "Cassandra.Timeout failed to parse: " ++ e) ++
  stepErr (agg cfg.excludeLinkPatterns "exclude_link_patterns") (fun e => e) ++
  stepErr (agg cfg.includeLinkPatterns "include_link_patterns") (fun e => e) ++
  stepErr (pd cfg.dispatcher.minLinkRefreshTime)
    (fun e => "Dispatcher.MinLinkRefreshTime failed to parse: " ++ e) ++
  stepErr (pd cfg.defaultCrawlDelay) (fun e => "DefaultCrawlDelay failed to parse: " ++ e) ++
  stepErr (pd cfg.maxCrawlDelay) (fun e => "MaxCrawlDelay failed to parse: " ++ e) ++
  (if (pd cfg.maxCrawlDelay).toOption.getD 0 < (pd cfg.defaultCrawlDelay).toOption.getD 0 then
    ["Consistency problem: MaxCrawlDelay > DefaultCrawlDealy"]
   else [])

/-- `readConfig` (config.go:252-296): reset to defaults with the sequence
fields emptied (the go-yaml workaround), read and unmarshal the file, refill
the sequence fields that stayed empty, then run the invariant check.  The
result is the configuration left in the global `Config` together with the
returned error.  `file` is the outcome of `ioutil.ReadFile` (`none`: the
file could not be read) and `um` models `yaml.Unmarshal` producing the
overlaid configuration. -/
def readConfig (pd : String → Except String Int)
    (agg : List String → String → Except String String)
    (um : String → Except String WalkerConfig)
    (file : Option String) : WalkerConfig × Option String :=
  let base : WalkerConfig :=
    { defaultConfig with
      acceptFormats := [], acceptProtocols := [], ignoreTags := [],
      purgeSidList := [],
      cassandra := { defaultConfig.cassandra with hosts := [] } }
  match file with
  | none => (base, some "Failed to read config file")
  | some data =>
    match um data with
    | .error e => (base, some ("Failed to unmarshal yaml from config file: " ++ e))
    | .ok cfg0 =>
      let cfg1 : WalkerConfig :=
        { cfg0 with
          acceptFormats :=
            if cfg0.acceptFormats.isEmpty then ["text/html", "text/*;"]
            else cfg0.acceptFormats
          acceptProtocols :=
            if cfg0.acceptProtocols.isEmpty then ["http", "https"]
            else cfg0.acceptProtocols
          ignoreTags :=
            if cfg0.ignoreTags.isEmpty then ["script", "img", "link"]
            else cfg0.ignoreTags
          purgeSidList :=
            if cfg0.purgeSidList.isEmpty then ["jsessionid", "phpsessid", "aspsessionid"]
            else cfg0.purgeSidList
          cassandra :=
            { cfg0.cassandra with
              hosts :=
                if cfg0.cassandra.hosts.isEmpty then ["localhost"]
                else cfg0.cassandra.hosts } }
      let errs := assertConfigInvariants pd agg cfg1
      (cfg1, if errs.isEmpty then none else some "Config Error")

/-- The disjunction of load-time invariant violations enumerated by the
claim: `refresh_percentage` outside `[0, 100]`; `max_links_per_segment < 1`;
`num_concurrent_domains < 1`; `default_crawl_delay` parsed greater than the
parsed `max_crawl_delay`; any of the five duration options failing to parse;
an include or exclude pattern list failing to compile. -/
def claimedLoadViolation (pd : String → Except String Int)
    (agg : List String → String → Except String String)
    (cfg : WalkerConfig) : Bool :=
  (cfg.dispatcher.refreshPercentage < 0 ∨ 100 < cfg.dispatcher.refreshPercentage : Bool) ||
  decide (cfg.dispatcher.maxLinksPerSegment < 1) ||
  decide (cfg.dispatcher.numConcurrentDomains < 1) ||
  (match pd cfg.defaultCrawlDelay, pd cfg.maxCrawlDelay with
    | .ok d, .ok m => decide (m < d)
    | _, _ => false) ||
  !(pd cfg.httpTimeout).isOk ||
  !(pd cfg.cassandra.timeout).isOk ||
  !(pd cfg.dispatcher.minLinkRefreshTime).isOk ||
  !(pd cfg.defaultCrawlDelay).isOk ||
  !(pd cfg.maxCrawlDelay).isOk ||
  !(agg cfg.excludeLinkPatterns "exclude_link_patterns").isOk ||
  !(agg cfg.includeLinkPatterns "include_link_patterns").isOk

/-! ## Dispatcher (spec-modelled)

The dispatcher implementation lives in the `cassandra` datastore package,
whose source is not part of this tree; only its test suite
(`cassandra/dispatcher_test.go`) is present.  The segment-selection and
dispatch-flag behaviour below is therefore modelled from the specification
(spec §4.1) rather than translated from source. -/

/-- A row of `domain_info` (spec §3, §6; mirrors the columns
`dispatcher_test.go` inserts). -/
structure DomainInfo where
  dom : String
  claimTok : Option String
  priority : Int
  dispatched : Bool
  excluded : Bool
deriving DecidableEq, Repr

/-- A latest-per-URL link row of a domain, restricted to the attributes the
selection algorithm reads: the URL, its `crawl_time`, and the `getnow`
flag. -/
structure LinkRow where
  url : RawURL
  crawlTime : Int
  getnow : Bool
deriving DecidableEq, Repr

/-- Insertion into a list kept ascending by `crawlTime`. -/
def insertByTime (x : LinkRow) : List LinkRow → List LinkRow
  | [] => [x]
  | y :: ys =>
    if x.crawlTime ≤ y.crawlTime then x :: y :: ys else y :: insertByTime x ys

/-- Sort link rows ascending by `crawlTime` (oldest first). -/
def sortByTime (l : List LinkRow) : List LinkRow :=
  l.foldr insertByTime []

/-- Modelled from the spec: the dispatcher's segment-selection algorithm
(spec §4.1), whose implementation (the cassandra `Dispatcher`) is missing
from this tree.  Partition the rows into `getnow`, `uncrawled`
(`crawl_time = NotYetCrawled`) and `refreshable` (crawled at least
`T_min = MinLinkRefreshTime` ago, oldest first); fill the segment with all
getnow links up to `S = MaxLinksPerSegment`, then mix refreshable and
uncrawled links by `refreshPercent = RefreshPercentage`, letting a shortfall
in one pool widen the other's quota. -/
def generateSegment (S : Nat) (refreshPercent : Nat) (tmin now : Int)
    (rows : List LinkRow) : List LinkRow :=
  let getnowRows := rows.filter (fun r => r.getnow)
  let uncrawled := rows.filter (fun r => !r.getnow && r.crawlTime = notYetCrawled)
  let refreshable := sortByTime (rows.filter (fun r =>
    !r.getnow && r.crawlTime ≠ notYetCrawled && tmin ≤ now - r.crawlTime))
  let g := getnowRows.take S
  let rem := S - g.length
  let refreshTarget := rem * refreshPercent / 100
  let r1 := refreshable.take refreshTarget
  let u1 := uncrawled.take (rem - r1.length)
  let r2 := (refreshable.drop r1.length).take (rem - r1.length - u1.length)
  g ++ r1 ++ u1 ++ r2

/-- Modelled from the spec: one dispatcher pass over one non-excluded,
non-dispatched domain (spec §4.1): compute the segment; if it is empty,
write nothing and leave the domain untouched (the empty-segment policy);
otherwise write the segment rows and set `dispatched = true`. -/
def dispatchDomain (S refreshPercent : Nat) (tmin now : Int)
    (d : DomainInfo) (rows : List LinkRow) : DomainInfo × List LinkRow :=
  let seg := generateSegment S refreshPercent tmin now rows
  if seg.isEmpty then (d, [])
  else ({ d with dispatched := true }, seg)

/-! ## Helper lemmas -/

theorem parseAnchorAttrs_spec (rawParse : String → Except String RawURL)
    (attrs : List (String × String)) : ∀ links,
    parseAnchorAttrs rawParse attrs links =
      links ++ attrs.filterMap (fun kv =>
        if kv.1 == "href" then
          match ParseURL rawParse kv.2 with
          | (u, none) => some u
          | (_, some _) => none
        else none) := by
  induction attrs with
  | nil => intro links; simp [parseAnchorAttrs]
  | cons kv rest ih =>
    intro links
    obtain ⟨k, v⟩ := kv
    simp only [parseAnchorAttrs, List.filterMap_cons]
    by_cases hk : (k == "href") = true
    · rcases hpu : ParseURL rawParse v with ⟨u, err⟩
      cases err with
      | none => simp [hk, hpu, ih, List.append_assoc]
      | some e => simp [hk, hpu, ih]
    · simp [hk, ih]


theorem getLinksLoop_spec (rawParse : String → Except String RawURL)
    (ignoreTags : List String) (toks : List Token) : ∀ links,
    getLinksLoop rawParse (includedTags ignoreTags) toks links =
      links ++ specLinkExtraction rawParse ignoreTags toks := by
  induction toks with
  | nil => intro links; simp [getLinksLoop, specLinkExtraction]
  | cons t rest ih =>
    intro links
    cases t with
    | errorTok => simp [getLinksLoop, specLinkExtraction, Token.isErrorTok]
    | other => simp [getLinksLoop, specLinkExtraction, Token.isErrorTok, ih]
    | startTag name attrs =>
      simp only [getLinksLoop]
      rw [ih]
      by_cases hinc : includedTags ignoreTags name = true
      · by_cases hempty : attrs.isEmpty = true
        · have : attrs = [] := List.isEmpty_iff.mp hempty
          subst this
          simp [specLinkExtraction, Token.isErrorTok, hinc]
        · simp [specLinkExtraction, Token.isErrorTok, hinc, hempty,
            parseAnchorAttrs_spec, List.append_assoc]
      · simp [specLinkExtraction, Token.isErrorTok, hinc]

theorem storeParsedURLs_append (a b : List Event) :
    storeParsedURLs (a ++ b) = storeParsedURLs a ++ storeParsedURLs b := by
  simp [storeParsedURLs]

theorem storeParsedURLs_map (f : WURL → WURL) (fr : FetchResults) (l : List WURL) :
    storeParsedURLs (l.map (fun o => Event.storeParsedURL (f o) fr)) = l.map f := by
  induction l with
  | nil => rfl
  | cons a t ih => simpa [storeParsedURLs, List.filterMap_cons] using ih

/-! ## Concrete instances used by counterexamples and witnesses -/

/-- A concrete segment link. -/
def cexLink1 : WURL := { url := some { scheme := "http", host := "test.com", path := "/1" }, lastCrawled := 0 }

/-- A second concrete segment link. -/
def cexLink2 : WURL := { url := some { scheme := "http", host := "test.com", path := "/2" }, lastCrawled := 0 }

/-- A network that always fails. -/
def netFail : WURL → FetchOutcome := fun _ => .err "connection refused"

/-- A tokenizer that always yields no tokens. -/
def tokEmpty : List Nat → Except String (List Token) := fun _ => .ok []

/-- A URL parser that accepts everything verbatim into the path. -/
def rpOk : String → Except String RawURL := fun s => .ok { scheme := "s", host := "h", path := s }

/-- A URL parser that rejects everything. -/
def rpFail : String → Except String RawURL := fun _ => .error "no scheme"

/-! ## Claims -/

/-- C10: for every input, `ParseURL` returns the (never nil) wrapper whose
`LastCrawled` is `NotYetCrawled`; on an underlying parse failure the wrapper
is still returned, with a nil embedded URL, together with the non-nil
error.  (The model returns the wrapper value totally, which renders the
non-nilness of the returned pointer.) -/
theorem claim_c10_parseurl (rawParse : String → Except String RawURL) (ref : String) :
    (ParseURL rawParse ref).1.lastCrawled = notYetCrawled ∧
    (∀ e, rawParse ref = .error e →
      (ParseURL rawParse ref).1.url = none ∧ (ParseURL rawParse ref).2 = some e) ∧
    (∀ r, rawParse ref = .ok r →
      (ParseURL rawParse ref).1.url = some r ∧ (ParseURL rawParse ref).2 = none) := by
  rcases h : rawParse ref with e | r <;>
    simp [ParseURL, h]

theorem claim_c10_parseurl_witness :
    (ParseURL rpFail "://x").1.lastCrawled = notYetCrawled ∧
    (ParseURL rpFail "://x").1.url = none ∧
    (ParseURL rpFail "://x").2 = some "no scheme" :=
  ⟨(claim_c10_parseurl rpFail "://x").1,
   ((claim_c10_parseurl rpFail "://x").2.1 "no scheme" rfl).1,
   ((claim_c10_parseurl rpFail "://x").2.1 "no scheme" rfl).2⟩

/-- C8: `getLinks` yields exactly the successfully parsed `href` attribute
values of the start tags in the default tag set minus `IgnoreTags`, in
document order, up to the first tokenizer error -- the specification-side
`specLinkExtraction` -- for every tokenizer, URL parser, ignore list and
body. -/
theorem claim_c8_getlinks (tokenize : List Nat → Except String (List Token))
    (rawParse : String → Except String RawURL) (ignoreTags : List String)
    (contents : List Nat) :
    getLinks tokenize rawParse ignoreTags contents =
      match tokenize contents with
      | .error e => .error e
      | .ok toks => .ok (specLinkExtraction rawParse ignoreTags toks) := by
  rcases h : tokenize contents with e | toks <;>
    simp [getLinks, h, getLinksLoop_spec]

/-- C7: an extracted outlink with an empty scheme inherits the referring
URL's scheme, one with an empty host inherits the referring URL's host, an
outlink with both non-empty passes through unchanged, and in the fetcher
loop the URLs handed to `StoreParsedURL` are exactly the extracted outlinks
after this normalisation. -/
theorem claim_c7_outlink_inheritance (link o : WURL) (r : RawURL) (h : o.url = some r) :
    (normalizeOutlink link o).url =
      some { scheme := if r.scheme = "" then link.scheme else r.scheme,
             host := if r.host = "" then link.host else r.host,
             path := r.path } ∧
    (r.scheme ≠ "" → r.host ≠ "" → normalizeOutlink link o = o) ∧
    (∀ robots cd now net tok rp ign resp body,
      robotsDisallow robots link = false → net link = .ok resp →
      isHTML (some resp) = true → resp.bodyRead = .ok body →
      storeParsedURLs (processLink robots cd now net tok rp ign link) =
        (match getLinks tok rp ign body with
          | .error _ => []
          | .ok outlinks => outlinks.map (normalizeOutlink link))) := by
  refine ⟨?_, ?_, ?_⟩
  · by_cases hs : r.scheme = "" <;> by_cases hh : r.host = "" <;>
      simp [normalizeOutlink, h, hs, hh]
  · intro hs hh
    obtain ⟨ou, olc⟩ := o
    simp only at h
    subst h
    simp [normalizeOutlink, hs, hh]
  · intro robots cd now net tok rp ign resp body hrob hnet hhtml hbody
    simp only [processLink, hrob, Bool.false_eq_true, if_false, hnet]
    simp only [afterFetch, hhtml, if_true, hbody]
    rcases hgl : getLinks tok rp ign body with e | outlinks
    · simp [hgl, storeParsedURLs]
    · simp only [hgl]
      have hpeel : ∀ t, storeParsedURLs (Event.sleep cd :: Event.httpGet link :: t) =
          storeParsedURLs t := fun t => by simp [storeParsedURLs, List.filterMap_cons]
      rw [hpeel, storeParsedURLs_append, storeParsedURLs_map]
      simp [storeParsedURLs]

/-- A response carrying a 3-byte HTML body. -/
def respHTML : Response := { contentType := ["text/html"], bodyRead := .ok [0, 1, 2] }

/-- A network on which every URL yields `respHTML`. -/
def netHTML : WURL → FetchOutcome := fun _ => .ok respHTML

/-- A tokenizer that yields one anchor tag, but only when handed the full
3-byte body -- on any truncation it yields nothing. -/
def tokHref : List Nat → Except String (List Token) := fun bs =>
  if bs.length = 3 then .ok [.startTag "a" [("href", "x")]] else .ok []

theorem claim_c7_outlink_inheritance_witness :
    (normalizeOutlink cexLink1
        { url := some { scheme := "", host := "", path := "/rel" }, lastCrawled := 0 }).url =
      some { scheme := "http", host := "test.com", path := "/rel" } ∧
    normalizeOutlink cexLink1 cexLink2 = cexLink2 ∧
    storeParsedURLs (processLink none 0 0 netHTML tokHref rpOk [] cexLink1) =
      [{ url := some { scheme := "s", host := "h", path := "x" }, lastCrawled := 0 }] := by
  refine ⟨?_, ?_, ?_⟩
  · have h := (claim_c7_outlink_inheritance cexLink1
      ⟨some ⟨"", "", "/rel"⟩, 0⟩ ⟨"", "", "/rel"⟩ rfl).1
    simpa using h
  · exact (claim_c7_outlink_inheritance cexLink1 cexLink2
      ⟨"http", "test.com", "/2"⟩ rfl).2.1 (by decide) (by decide)
  · have h := (claim_c7_outlink_inheritance cexLink1 cexLink1
      ⟨"http", "test.com", "/1"⟩ rfl).2.2 none 0 0 netHTML tokHref rpOk []
      respHTML [0, 1, 2] rfl rfl (by decide) rfl
    rw [h]
    decide

/-- C4: a robots-disallowed link produces exactly one event -- a
`StoreURLFetchResults` row with `ExcludedByRobots = true` -- with no HTTP
request and no crawl-delay sleep, and the segment loop then proceeds
directly to the remaining URLs. -/
theorem claim_c4_robots_excluded (g : RobotsGroup) (cd now : Int)
    (net : WURL → FetchOutcome) (tok : List Nat → Except String (List Token))
    (rp : String → Except String RawURL) (ign : List String) (link : WURL)
    (h : g.test link.render = false) :
    processLink (some g) cd now net tok rp ign link =
      [Event.storeURLFetchResults
        { url := link, response := none, fetchError := none, fetchTime := 0,
          excludedByRobots := true }] ∧
    ∀ quitAt rest, processSegment quitAt (some g) cd now net tok rp ign (link :: rest) =
      Event.storeURLFetchResults
        { url := link, response := none, fetchError := none, fetchTime := 0,
          excludedByRobots := true } ::
        processSegment quitAt (some g) cd now net tok rp ign rest := by
  constructor
  · simp [processLink, robotsDisallow, h]
  · intro quitAt rest
    simp [processSegment, processLink, robotsDisallow, h]

/-- A robots group that disallows every URL. -/
def gDeny : RobotsGroup := { test := fun _ => false, crawlDelay := 0 }

theorem claim_c4_robots_excluded_witness :
    processLink (some gDeny) 5 7 netFail tokEmpty rpOk [] cexLink1 =
      [Event.storeURLFetchResults
        { url := cexLink1, response := none, fetchError := none, fetchTime := 0,
          excludedByRobots := true }] ∧
    processSegment (fun _ => false) (some gDeny) 5 7 netFail tokEmpty rpOk []
        [cexLink1, cexLink2] =
      Event.storeURLFetchResults
        { url := cexLink1, response := none, fetchError := none, fetchTime := 0,
          excludedByRobots := true } ::
        processSegment (fun _ => false) (some gDeny) 5 7 netFail tokEmpty rpOk [] [cexLink2] :=
  ⟨(claim_c4_robots_excluded gDeny 5 7 netFail tokEmpty rpOk [] cexLink1 rfl).1,
   (claim_c4_robots_excluded gDeny 5 7 netFail tokEmpty rpOk [] cexLink1 rfl).2
     (fun _ => false) [cexLink2]⟩

/-- A robots group advertising a ten-minute crawl delay. -/
def gSlow : RobotsGroup := { test := fun _ => true, crawlDelay := 600 * second }

/-- C1 counterexample: with `DefaultCrawlDelay = 1` (second) and
`MaxCrawlDelay = 5m = 300` seconds (the default configuration values), a
robots crawl-delay of ten minutes is adopted unmodified: the effective
delay the fetcher sleeps is 600 s, which exceeds `MaxCrawlDelay` and is not
`max(robots delay, default) clamped to MaxCrawlDelay`; fetcher.go:169-172
never consults `MaxCrawlDelay`. -/
theorem claim_c1_crawl_delay_counterexample :
    effectiveCrawlDelay (some gSlow) 1 = 600 * second ∧
    300 * second < effectiveCrawlDelay (some gSlow) 1 ∧
    effectiveCrawlDelay (some gSlow) 1 ≠
      min (max (600 * second) (1 * second)) (300 * second) := by
  refine ⟨by decide, by decide, by decide⟩

/-- C1 amended: the effective crawl delay is `DefaultCrawlDelay` seconds,
except that a present robots group whose `CrawlDelay` nanosecond count
exceeds the plain integer `DefaultCrawlDelay` replaces it unmodified -- no
`MaxCrawlDelay` clamp is applied, so the slept delay can exceed
`MaxCrawlDelay`; and the fetcher's first action on every link the robots
rules allow is to sleep exactly this delay. -/
theorem claim_c1_crawl_delay_amended :
    (∀ robots d, effectiveCrawlDelay robots d = amendedCrawlDelay robots d) ∧
    (∀ robots d now net tok rp ign link, robotsDisallow robots link = false →
      (processLink robots (effectiveCrawlDelay robots d) now net tok rp ign link).head? =
        some (.sleep (effectiveCrawlDelay robots d))) := by
  constructor
  · intro robots d
    cases robots <;> rfl
  · intro robots d now net tok rp ign link hrob
    simp [processLink, hrob]

theorem claim_c1_crawl_delay_amended_witness :
    effectiveCrawlDelay (some gSlow) 1 = amendedCrawlDelay (some gSlow) 1 ∧
    (processLink (some gSlow) (effectiveCrawlDelay (some gSlow) 1) 0 netFail tokEmpty rpOk []
        cexLink1).head? =
      some (.sleep (effectiveCrawlDelay (some gSlow) 1)) :=
  ⟨claim_c1_crawl_delay_amended.1 (some gSlow) 1,
   claim_c1_crawl_delay_amended.2 (some gSlow) 1 0 netFail tokEmpty rpOk [] cexLink1 rfl⟩

/-- The quit signal raised from the second link of a segment onwards. -/
def quitAfterFirst : Nat → Bool := fun i => decide (1 ≤ i)

/-- C2 counterexample: with the quit signal raised after the first of two
segment links, the fetcher still performs the HTTP GET for the second link:
the per-URL loop (fetcher.go:175-236) contains no check of `f.quit` (only
the TODO at fetcher.go:177), so shutdown does not stop the current
segment. -/
theorem claim_c2_shutdown_counterexample :
    quitAfterFirst 1 = true ∧
    Event.httpGet cexLink2 ∈
      processSegment quitAfterFirst none 0 0 netFail tokEmpty rpOk [] [cexLink1, cexLink2] := by
  refine ⟨rfl, by decide⟩

/-- C2 amended: the fetcher checks the shutdown signal only at the top of
its outer loop -- where a signalled quit stops it before any claim -- and
never between the URLs of a segment: the segment trace is independent of
when shutdown is signalled, so every URL of the current segment is still
processed. -/
theorem claim_c2_shutdown_amended :
    (∀ (q q' : Nat → Bool) robots cd now net tok rp ign links,
      processSegment q robots cd now net tok rp ign links =
        processSegment q' robots cd now net tok rp ign links) ∧
    (∀ claimResult, outerIteration true claimResult = .stopped) := by
  constructor
  · intro q q' robots cd now net tok rp ign links
    induction links with
    | nil => rfl
    | cons l rest ih => simp [processSegment, ih]
  · intro claimResult
    rfl

theorem mem_handleResponse_processLink (robots : Option RobotsGroup) (cd now : Int)
    (net : WURL → FetchOutcome) (tok : List Nat → Except String (List Token))
    (rp : String → Except String RawURL) (ign : List String) (link : WURL)
    (resp : Response) (body : List Nat)
    (hrob : robotsDisallow robots link = false) (hnet : net link = .ok resp)
    (hhtml : isHTML (some resp) = true) (hbody : resp.bodyRead = .ok body)
    (fr : FetchResults)
    (hmem : Event.handleResponse fr ∈ processLink robots cd now net tok rp ign link) :
    fr = { url := link, response := some resp, fetchError := none, fetchTime := now,
           excludedByRobots := false } := by
  simp only [processLink, hrob, Bool.false_eq_true, if_false, hnet] at hmem
  simp only [afterFetch, hhtml, if_true, hbody] at hmem
  rcases hgl : getLinks tok rp ign body with e | outlinks <;>
    simp only [hgl] at hmem <;> simp at hmem <;> exact hmem

/-- The fetch results record for the 3-byte HTML response of `netHTML`. -/
def frHTML : FetchResults :=
  { url := cexLink1, response := some respHTML, fetchError := none, fetchTime := 0,
    excludedByRobots := false }

/-- C3 counterexample: with `MaxHTTPContentSizeBytes = 2`, fetching a 3-byte
HTML body produces a trace in which the full 3-byte body reaches both link
extraction (the anchor of `tokHref` is only visible on the untruncated body,
and its link is stored) and the handler: the body read at fetcher.go:206-213
is an unbounded `ioutil.ReadAll` (the cap is only the TODO at
fetcher.go:202-205), so more than `MaxHTTPContentSizeBytes` bytes are read
and no truncated prefix is used. -/
theorem claim_c3_body_cap_counterexample :
    processLink none 0 0 netHTML tokHref rpOk [] cexLink1 =
      [Event.sleep 0, Event.httpGet cexLink1,
       Event.storeParsedURL
         { url := some { scheme := "s", host := "h", path := "x" }, lastCrawled := 0 } frHTML,
       Event.handleResponse frHTML, Event.storeURLFetchResults frHTML] ∧
    frHTML.response = some { contentType := ["text/html"], bodyRead := .ok [0, 1, 2] } ∧
    ¬ ((3 : Int) ≤ 2) := by
  refine ⟨by decide, rfl, by decide⟩

/-- C3 amended: the fetcher reads the whole response body -- there is no
`MaxHTTPContentSizeBytes` bound on the read -- and the full body is both the
input of link extraction and the body the handler receives. -/
theorem claim_c3_body_cap_amended (robots : Option RobotsGroup) (cd now : Int)
    (net : WURL → FetchOutcome) (tok : List Nat → Except String (List Token))
    (rp : String → Except String RawURL) (ign : List String) (link : WURL)
    (ct : List String) (body : List Nat)
    (hrob : robotsDisallow robots link = false)
    (hnet : net link = .ok { contentType := ct, bodyRead := .ok body })
    (hhtml : isHTML (some { contentType := ct, bodyRead := .ok body }) = true) :
    (∀ fr, Event.handleResponse fr ∈ processLink robots cd now net tok rp ign link →
      fr.response = some { contentType := ct, bodyRead := .ok body }) ∧
    storeParsedURLs (processLink robots cd now net tok rp ign link) =
      (match getLinks tok rp ign body with
        | .error _ => []
        | .ok outlinks => outlinks.map (normalizeOutlink link)) := by
  constructor
  · intro fr hmem
    have h := mem_handleResponse_processLink robots cd now net tok rp ign link
      { contentType := ct, bodyRead := .ok body } body hrob hnet hhtml rfl fr hmem
    rw [h]
  · simp only [processLink, hrob, Bool.false_eq_true, if_false, hnet]
    simp only [afterFetch, hhtml, if_true]
    rcases hgl : getLinks tok rp ign body with e | outlinks
    · simp [hgl, storeParsedURLs]
    · simp only [hgl]
      have hpeel : ∀ t, storeParsedURLs (Event.sleep cd :: Event.httpGet link :: t) =
          storeParsedURLs t := fun t => by simp [storeParsedURLs, List.filterMap_cons]
      rw [hpeel, storeParsedURLs_append, storeParsedURLs_map]
      simp [storeParsedURLs]

theorem claim_c3_body_cap_amended_witness :
    frHTML.response = some { contentType := ["text/html"], bodyRead := .ok [0, 1, 2] } ∧
    storeParsedURLs (processLink none 0 0 netHTML tokHref rpOk [] cexLink1) =
      [{ url := some { scheme := "s", host := "h", path := "x" }, lastCrawled := 0 }] := by
  have h := claim_c3_body_cap_amended none 0 0 netHTML tokHref rpOk [] cexLink1
    ["text/html"] [0, 1, 2] rfl rfl (by decide)
  refine ⟨h.1 frHTML (by decide), ?_⟩
  rw [h.2]
  decide

theorem mem_afterFetch_not_excluded (now : Int)
    (tok : List Nat → Except String (List Token))
    (rp : String → Except String RawURL) (ign : List String) (link : WURL)
    (fr : FetchResults) (resp : Response) (fr' : FetchResults)
    (hfr : fr.excludedByRobots = false)
    (hmem : Event.storeURLFetchResults fr' ∈ afterFetch now tok rp ign link fr resp) :
    fr'.excludedByRobots = false := by
  simp only [afterFetch] at hmem
  by_cases hh : isHTML (some resp) = true
  · simp only [hh, if_true] at hmem
    rcases hbr : resp.bodyRead with e | body <;> simp only [hbr] at hmem
    · simp at hmem
      simp [hmem, hfr]
    · rcases hgl : getLinks tok rp ign body with e | outlinks <;>
        simp only [hgl] at hmem <;> simp at hmem <;> simp [hmem, hfr]
  · simp only [hh, if_false] at hmem
    simp at hmem
    simp [hmem, hfr]

theorem mem_store_processLink_none_not_excluded (cd now : Int)
    (net : WURL → FetchOutcome) (tok : List Nat → Except String (List Token))
    (rp : String → Except String RawURL) (ign : List String) (link : WURL)
    (fr : FetchResults)
    (hmem : Event.storeURLFetchResults fr ∈ processLink none cd now net tok rp ign link) :
    fr.excludedByRobots = false := by
  simp only [processLink, robotsDisallow, Bool.false_eq_true, if_false] at hmem
  rcases hnet : net link with e | resp <;> simp only [hnet] at hmem
  · simp at hmem
    simp [hmem]
  · simp only [List.mem_cons] at hmem
    rcases hmem with h | h | h
    · exact absurd h (by simp)
    · exact absurd h (by simp)
    · exact mem_afterFetch_not_excluded now tok rp ign link _ resp fr rfl h

theorem mem_store_processSegment_none_not_excluded (quitAt : Nat → Bool) (cd now : Int)
    (net : WURL → FetchOutcome) (tok : List Nat → Except String (List Token))
    (rp : String → Except String RawURL) (ign : List String) (links : List WURL)
    (fr : FetchResults)
    (hmem : Event.storeURLFetchResults fr ∈
      processSegment quitAt none cd now net tok rp ign links) :
    fr.excludedByRobots = false := by
  induction links with
  | nil => simp [processSegment] at hmem
  | cons l rest ih =>
    simp only [processSegment, List.mem_append] at hmem
    rcases hmem with h | h
    · exact mem_store_processLink_none_not_excluded cd now net tok rp ign l fr h
    · exact ih h

/-- C5: when fetching or parsing robots.txt fails, the fetcher's robots
group is nil and it proceeds permissively -- in the segment walked under a
nil robots group, no stored fetch-result row ever carries
`ExcludedByRobots = true`. -/
theorem claim_c5_robots_failure_permissive (net : WURL → FetchOutcome)
    (parseRobots : Response → Except String RobotsData) (ua host : String)
    (h : (∃ e, net (robotsURL host) = .err e) ∨
      (∃ res e, net (robotsURL host) = .ok res ∧ parseRobots res = .error e)) :
    fetchRobots net parseRobots ua host = none ∧
    (∀ quitAt cd now net2 tok rp ign links fr,
      Event.storeURLFetchResults fr ∈
        processSegment quitAt (fetchRobots net parseRobots ua host) cd now net2 tok rp ign links →
      fr.excludedByRobots = false) := by
  have hnone : fetchRobots net parseRobots ua host = none := by
    rcases h with ⟨e, he⟩ | ⟨res, e, hres, hpe⟩
    · simp [fetchRobots, he]
    · simp [fetchRobots, hres, hpe]
  refine ⟨hnone, ?_⟩
  intro quitAt cd now net2 tok rp ign links fr hmem
  rw [hnone] at hmem
  exact mem_store_processSegment_none_not_excluded quitAt cd now net2 tok rp ign links fr hmem

/-- A robots parser that always fails. -/
def parseRobotsFail : Response → Except String RobotsData := fun _ => .error "parse error"

theorem claim_c5_robots_failure_permissive_witness :
    fetchRobots netFail parseRobotsFail "Walker" "test.com" = none ∧
    ({ url := cexLink1, response := none, fetchError := some "connection refused",
       fetchTime := 0, excludedByRobots := false } : FetchResults).excludedByRobots = false :=
  ⟨(claim_c5_robots_failure_permissive netFail parseRobotsFail "Walker" "test.com"
      (Or.inl ⟨"connection refused", rfl⟩)).1,
   (claim_c5_robots_failure_permissive netFail parseRobotsFail "Walker" "test.com"
      (Or.inl ⟨"connection refused", rfl⟩)).2 quitAfterFirst 0 0 netFail tokEmpty rpOk []
      [cexLink1]
      { url := cexLink1, response := none, fetchError := some "connection refused",
        fetchTime := 0, excludedByRobots := false }
      (by decide)⟩

theorem ite_singleton_eq_nil {c : Prop} [Decidable c] {m : String} :
    ((if c then [m] else []) = ([] : List String)) ↔ ¬ c := by
  split <;> simp [*]

theorem stepErr_eq_nil {α : Type} (r : Except String α) (msg : String → String) :
    (stepErr r msg = []) ↔ r.isOk = true := by
  cases r <;> simp [stepErr, Except.isOk, Except.toBool]

theorem assertConfigInvariants_eq_nil_iff (pd : String → Except String Int)
    (agg : List String → String → Except String String) (cfg : WalkerConfig) :
    (assertConfigInvariants pd agg cfg = []) ↔
      (claimedLoadViolation pd agg cfg = false) := by
  rcases h6 : pd cfg.defaultCrawlDelay with e6 | v6 <;>
    rcases h7 : pd cfg.maxCrawlDelay with e7 | v7 <;>
    simp [assertConfigInvariants, claimedLoadViolation, List.append_eq_nil,
      ite_singleton_eq_nil, stepErr_eq_nil, h6, h7, Except.isOk, Except.toOption,
      decide_eq_false_iff_not, Bool.or_eq_false_iff] <;>
    tauto

theorem readConfig_errflag (pd : String → Except String Int)
    (agg : List String → String → Except String String) (cfg : WalkerConfig) :
    (if (assertConfigInvariants pd agg cfg).isEmpty then (none : Option String)
     else some "Config Error").isSome = claimedLoadViolation pd agg cfg := by
  by_cases h : assertConfigInvariants pd agg cfg = []
  · have hv := (assertConfigInvariants_eq_nil_iff pd agg cfg).mp h
    simp [h, hv]
  · have hv : claimedLoadViolation pd agg cfg = true := by
      rcases Bool.eq_false_or_eq_true (claimedLoadViolation pd agg cfg) with hf | ht
      · exact hf
      · exact absurd ((assertConfigInvariants_eq_nil_iff pd agg cfg).mpr ht) h
    have hne : (assertConfigInvariants pd agg cfg).isEmpty = false := by
      simpa [List.isEmpty_iff] using h
    simp [hne, hv]

/-- A duration parser on which every string parses (to 0 ns). -/
def pdOk : String → Except String Int := fun _ => .ok 0

/-- A regex aggregator on which every pattern list compiles. -/
def aggOk : List String → String → Except String String := fun _ _ => .ok ""

/-- A YAML unmarshaller that rejects the input `bad` and otherwise produces
the default configuration. -/
def umOkBad : String → Except String WalkerConfig := fun s =>
  if s = "bad" then .error "mapping values are not allowed in this context"
  else .ok defaultConfig

/-- C6 counterexample: config loading CAN return an error although no
load-time invariant of the enumerated list is violated -- an unreadable
config file (config.go:262-265) already produces an error, while the
resulting configuration (the defaults with the sequence fields emptied)
violates none of the listed invariants. -/
theorem claim_c6_config_load_counterexample :
    (readConfig pdOk aggOk umOkBad none).2.isSome = true ∧
    claimedLoadViolation pdOk aggOk (readConfig pdOk aggOk umOkBad none).1 = false := by
  exact ⟨rfl, by decide⟩

/-- C6 amended: config loading returns an error if and only if the config
file cannot be read, the YAML fails to unmarshal, or one of the listed
load-time invariants is violated (`refresh_percentage` outside `[0, 100]`,
`max_links_per_segment < 1`, `num_concurrent_domains < 1`, parsed
`default_crawl_delay` greater than parsed `max_crawl_delay`, a duration
option that fails to parse, or a link-pattern list that fails to compile);
in particular, when loading succeeds all of those invariants hold of the
resulting configuration. -/
theorem claim_c6_config_load_amended (pd : String → Except String Int)
    (agg : List String → String → Except String String)
    (um : String → Except String WalkerConfig) :
    ((readConfig pd agg um none).2.isSome = true) ∧
    (∀ d, (um d).isOk = false → (readConfig pd agg um (some d)).2.isSome = true) ∧
    (∀ d cfg0, um d = .ok cfg0 →
      (readConfig pd agg um (some d)).2.isSome =
        claimedLoadViolation pd agg (readConfig pd agg um (some d)).1) ∧
    (∀ file, (readConfig pd agg um file).2 = none →
      claimedLoadViolation pd agg (readConfig pd agg um file).1 = false) := by
  have key : ∀ d cfg0, um d = .ok cfg0 →
      (readConfig pd agg um (some d)).2.isSome =
        claimedLoadViolation pd agg (readConfig pd agg um (some d)).1 := by
    intro d cfg0 hum
    simp only [readConfig, hum]
    exact readConfig_errflag pd agg _
  refine ⟨rfl, ?_, key, ?_⟩
  · intro d h
    rcases hum : um d with e | cfg0
    · simp [readConfig, hum]
    · rw [hum] at h
      simp [Except.isOk, Except.toBool] at h
  · intro file h
    rcases file with _ | d
    · exact absurd h (by simp [readConfig])
    · rcases hum : um d with e | cfg0
      · exact absurd h (by simp [readConfig, hum])
      · have h3 := key d cfg0 hum
        rw [h] at h3
        simp at h3
        exact h3

theorem claim_c6_config_load_amended_witness :
    ((readConfig pdOk aggOk umOkBad none).2.isSome = true) ∧
    ((readConfig pdOk aggOk umOkBad (some "bad")).2.isSome = true) ∧
    ((readConfig pdOk aggOk umOkBad (some "walker.yaml")).2.isSome =
      claimedLoadViolation pdOk aggOk (readConfig pdOk aggOk umOkBad (some "walker.yaml")).1) ∧
    (claimedLoadViolation pdOk aggOk (readConfig pdOk aggOk umOkBad (some "walker.yaml")).1
      = false) := by
  have h := claim_c6_config_load_amended pdOk aggOk umOkBad
  exact ⟨h.1, h.2.1 "bad" (by decide), h.2.2.1 "walker.yaml" defaultConfig (by decide),
    h.2.2.2 (some "walker.yaml") (by decide)⟩

/-- C9 (spec-modelled): for a domain whose rows are all non-getnow, already
crawled, and younger than `MinLinkRefreshTime` -- which includes a domain
with no links at all -- the dispatcher's computed segment is empty, so the
cycle writes no segment rows and leaves the `dispatched` flag untouched
(false if it was false). -/
theorem claim_c9_empty_segment_not_dispatched (S refreshPercent : Nat) (tmin now : Int)
    (d : DomainInfo) (rows : List LinkRow)
    (hrows : ∀ r ∈ rows, r.getnow = false ∧ r.crawlTime ≠ notYetCrawled ∧
      now - r.crawlTime < tmin) :
    dispatchDomain S refreshPercent tmin now d rows = (d, []) ∧
    (dispatchDomain S refreshPercent tmin now d rows).1.dispatched = d.dispatched := by
  have hgetnow : rows.filter (fun r => r.getnow) = [] :=
    List.filter_eq_nil_iff.mpr (fun r hr => by simp [(hrows r hr).1])
  have huncrawled : rows.filter (fun r => !r.getnow && r.crawlTime = notYetCrawled) = [] :=
    List.filter_eq_nil_iff.mpr (fun r hr => by simp [(hrows r hr).2.1])
  have hrefresh : rows.filter (fun r =>
      !r.getnow && !decide (r.crawlTime = notYetCrawled) && decide (tmin ≤ now - r.crawlTime))
      = [] :=
    List.filter_eq_nil_iff.mpr (fun r hr => by
      have := (hrows r hr).2.2
      simp [not_le.mpr this])
  have hseg : generateSegment S refreshPercent tmin now rows = [] := by
    simp [generateSegment, hgetnow, huncrawled, hrefresh, sortByTime]
  constructor
  · simp [dispatchDomain, hseg]
  · simp [dispatchDomain, hseg]

/-- A non-getnow link row crawled 40 ns before `now = 50`, younger than the
49-hour-style refresh threshold `tmin = 100`. -/
def youngRow : LinkRow :=
  { url := { scheme := "http", host := "test.com", path := "/page1.html" },
    crawlTime := 10, getnow := false }

/-- The idle `test.com` domain of `TestDispatcherDispatchedFalseIfNoLinks`. -/
def idleDomain : DomainInfo :=
  { dom := "test.com", claimTok := none, priority := 0, dispatched := false,
    excluded := false }

theorem claim_c9_empty_segment_not_dispatched_witness :
    (dispatchDomain 500 25 100 50 idleDomain [youngRow] = (idleDomain, []) ∧
      (dispatchDomain 500 25 100 50 idleDomain [youngRow]).1.dispatched =
        idleDomain.dispatched) ∧
    (dispatchDomain 500 25 100 50 idleDomain [] = (idleDomain, []) ∧
      (dispatchDomain 500 25 100 50 idleDomain []).1.dispatched = idleDomain.dispatched) :=
  ⟨claim_c9_empty_segment_not_dispatched 500 25 100 50 idleDomain [youngRow]
      (by decide),
   claim_c9_empty_segment_not_dispatched 500 25 100 50 idleDomain []
      (by decide)⟩
